import Mathlib

/-!
# Verification development for the `log` package (github.com/YuDong1991/pkg/log)

Shallow embedding of `src/log/options.go`, `src/log/log.go` and
`src/log/context.go`.  The external collaborators (the Go standard library and
the `zap` backend) are embedded only as far as the package calls into them;
their Unicode tables are parameters.
-/

set_option linter.unusedVariables false
set_option linter.dupNamespace false

/-! ## The Go standard library, as far as `Options.Validate` uses it -/

namespace unicode

/-- The tables of the Go `unicode`/`strconv` packages outside the Latin-1 range;
they are parameters of the embedding. -/
structure Tables where
  /-- Go `unicode.To(unicode.LowerCase, r)` for a rune above `unicode.MaxASCII` -/
  lowerCase : Char → Char
  /-- Go `strconv.IsPrint(r)` for a rune above `0xFF` -/
  printWide : Char → Bool

/-- Go `unicode.ToLower`: ASCII is handled without the tables. -/
def ToLower (t : Tables) (r : Char) : Char :=
  if r.toNat ≤ 0x7F then
    if 'A'.toNat ≤ r.toNat ∧ r.toNat ≤ 'Z'.toNat then Char.ofNat (r.toNat + ('a'.toNat - 'A'.toNat)) else r
  else t.lowerCase r

end unicode

namespace strings

/-- Go `strings.ToLower` (and `bytes.ToLower`) on valid UTF-8 text. -/
def ToLower (t : unicode.Tables) (s : String) : String :=
  String.mk (s.data.map (unicode.ToLower t))

end strings

namespace strconv

/-- Go `strconv.IsPrint`. -/
def IsPrint (t : unicode.Tables) (r : Char) : Bool :=
  if r.toNat ≤ 0xFF then
    if 0x20 ≤ r.toNat ∧ r.toNat ≤ 0x7E then true
    else if 0xA1 ≤ r.toNat ∧ r.toNat ≤ 0xFF then r.toNat != 0xAD
    else false
  else t.printWide r

/-- One digit of `lowerhex`. -/
def lowerhex (n : Nat) : Char :=
  "0123456789abcdef".data.getD (n % 16) '0'

/-- Go `strconv.appendEscapedRune` with `quote = '"'`, `ASCIIonly = false`,
`graphicOnly = false`. -/
def appendEscapedRune (t : unicode.Tables) (r : Char) : List Char :=
  if r = '"' ∨ r = '\\' then ['\\', r]
  else if IsPrint t r then [r]
  else if r.toNat = 0x07 then ['\\', 'a']
  else if r.toNat = 0x08 then ['\\', 'b']
  else if r.toNat = 0x0C then ['\\', 'f']
  else if r = '\n' then ['\\', 'n']
  else if r = '\r' then ['\\', 'r']
  else if r = '\t' then ['\\', 't']
  else if r.toNat = 0x0B then ['\\', 'v']
  else if r.toNat < 0x20 ∨ r.toNat = 0x7F then
    ['\\', 'x', lowerhex (r.toNat / 16), lowerhex r.toNat]
  else if r.toNat < 0x10000 then
    ['\\', 'u'] ++ [12, 8, 4, 0].map (fun s => lowerhex (r.toNat / 2 ^ s))
  else
    ['\\', 'U'] ++ [28, 24, 20, 16, 12, 8, 4, 0].map (fun s => lowerhex (r.toNat / 2 ^ s))

/-- Go `strconv.Quote`, which is what the verb `%q` prints for a string. -/
def Quote (t : unicode.Tables) (s : String) : String :=
  String.mk ('"' :: (s.data.flatMap (appendEscapedRune t)) ++ ['"'])

end strconv

/-! ## `zapcore.Level` -/

namespace zapcore

/-- The type `zapcore.Level` is an `int8`; the embedding keeps it as an integer
and narrows explicitly where the source converts. -/
abbrev Level := Int

def DebugLevel : Level := -1
def InfoLevel : Level := 0
def WarnLevel : Level := 1
def ErrorLevel : Level := 2
def DPanicLevel : Level := 3
def PanicLevel : Level := 4
def FatalLevel : Level := 5

/-- The conversion `zapcore.Level(x)` of an `int`: the value is narrowed to
eight bits, two's complement. -/
def toLevel (x : Int) : Level := (x + 128) % 256 - 128

/-- The table of `zapcore.(*Level).unmarshalText`. -/
def unmarshalText (text : String) : Option Level :=
  if text = "debug" ∨ text = "DEBUG" then some DebugLevel
  else if text = "info" ∨ text = "INFO" ∨ text = "" then some InfoLevel
  else if text = "warn" ∨ text = "WARN" then some WarnLevel
  else if text = "error" ∨ text = "ERROR" then some ErrorLevel
  else if text = "dpanic" ∨ text = "DPANIC" then some DPanicLevel
  else if text = "panic" ∨ text = "PANIC" then some PanicLevel
  else if text = "fatal" ∨ text = "FATAL" then some FatalLevel
  else none

/-- Go `zapcore.(*Level).UnmarshalText`: the text as given, then lower-cased; the
error is the one of `fmt.Errorf("unrecognized level: %q", text)`. -/
def Level.UnmarshalText (t : unicode.Tables) (text : String) : Except String Level :=
  match unmarshalText text with
  | some l => .ok l
  | none =>
    match unmarshalText (strings.ToLower t text) with
    | some l => .ok l
    | none => .error ("unrecognized level: " ++ strconv.Quote t text)

end zapcore

/-! ## `src/log/options.go` -/

namespace log

def ConsoleFormat : String := "console"
def JsonFormat : String := "json"

/-- The configuration of a logger (`options.go`, `type Options`). -/
structure Options where
  OutputPaths : List String
  ErrorOutputPaths : List String
  Level : String
  Format : String
  DisableCaller : Bool
  DisableStacktrace : Bool
  EnableColor : Bool
  Development : Bool
  Name : String

/-- The constructor `NewOptions` of `options.go`. -/
def NewOptions : Options where
  OutputPaths := ["stdout"]
  ErrorOutputPaths := ["stderr"]
  Level := "info"
  Format := ConsoleFormat
  DisableCaller := false
  DisableStacktrace := false
  EnableColor := false
  Development := false
  Name := ""

/-- The method `Options.Validate` of `options.go`; an `error` is embedded as its message. -/
def Options.Validate (t : unicode.Tables) (o : Options) : List String :=
  let errs : List String := []
  let errs :=
    match zapcore.Level.UnmarshalText t o.Level with
    | .error err => errs ++ [err]
    | .ok _ => errs
  let format := strings.ToLower t o.Format
  let errs :=
    if format = ConsoleFormat ∨ format = JsonFormat then errs
    else errs ++ ["not a valid log format: " ++ strconv.Quote t o.Format]
  errs

/-- A level name is recognised when the table of `zapcore` knows it as given or
lower-cased. -/
def recognisedLevel (t : unicode.Tables) (s : String) : Bool :=
  (zapcore.unmarshalText s).isSome || (zapcore.unmarshalText (strings.ToLower t s)).isSome

/-- A format is recognised when its lower-cased text is `console` or `json`. -/
def recognisedFormat (t : unicode.Tables) (s : String) : Bool :=
  strings.ToLower t s == "console" || strings.ToLower t s == "json"

/-- The options of `Test_Options_Validate` (`option_test.go`). -/
def testOptions : Options where
  OutputPaths := ["stdout"]
  ErrorOutputPaths := ["stderr"]
  Level := "test"
  Format := "test"
  DisableCaller := false
  DisableStacktrace := false
  EnableColor := true
  Development := false
  Name := ""

/-- What `fmt.Sprintf("%s", errs)` prints for a slice of errors. -/
def sprintErrs (errs : List String) : String :=
  "[" ++ " ".intercalate errs ++ "]"

end log

/-! ## The `zap` backend, as far as `log.go` calls into it

A logger handle is a value: minimum severity of its core, development flag,
name and the fields bound with `With`.  The sink is the list of records written
so far.  Sampling, caller and stack-trace annotation are not part of the model.
-/

namespace zap

/-- A Go value passed where `interface{}` is expected. -/
inductive Value where
  | nil
  | string (s : String)
  | int (n : Int)
  | bool (b : Bool)
  /-- a `zap.Field` with its key and payload -/
  | field (key : String) (val : Value)
  /-- a slice of values -/
  | array (elems : List Value)
  /-- any other Go value, identified by a tag -/
  | other (tag : Nat)

/-- A structured field (`zap.Field`): key and payload. -/
structure Field where
  Key : String
  Interface : Value

/-- Go `zap.Any(key, value)`. -/
def Any (key : String) (value : Value) : Field := ⟨key, value⟩

/-- The loose value that holds the structured field `f`. -/
def Field.toValue (f : Field) : Value := .field f.Key f.Interface

/-- Go type assertion `v.(zap.Field)`. -/
def Value.asField : Value → Option Field
  | .field k v => some ⟨k, v⟩
  | _ => none

/-- Go type assertion `v.(string)`. -/
def Value.asString : Value → Option String
  | .string s => some s
  | _ => none

/-- A record written to the sink: severity, logger name, message, and the
fields in encoding order (bound fields first, then the fields of the call). -/
structure Entry where
  Level : zapcore.Level
  LoggerName : String
  Message : String
  Fields : List Field

/-- The result of a call that writes to the sink: it returns, or the goroutine
panics, or the process exits; `out` is the sink afterwards. -/
inductive Outcome (α : Type) where
  | ok (val : α) (out : List Entry)
  | panic (out : List Entry)
  | exit (out : List Entry)

/-- The sink after the call, however it ended. -/
def Outcome.out {α : Type} : Outcome α → List Entry
  | .ok _ o => o
  | .panic o => o
  | .exit o => o

/-- Sequencing: the second call runs only when the first returns. -/
def Outcome.andThen {α β : Type} (r : Outcome α) (f : α → List Entry → Outcome β) : Outcome β :=
  match r with
  | .ok a o => f a o
  | .panic o => .panic o
  | .exit o => .exit o

/-- A logger handle (`*zap.Logger`). -/
structure Logger where
  name : String
  development : Bool
  /-- minimum severity that the core has enabled -/
  level : zapcore.Level
  /-- fields bound with `With` -/
  context : List Field

/-- Go `Logger.Core().Enabled(lvl)` for the level-threshold core. -/
def Logger.Enabled (log : Logger) (lvl : zapcore.Level) : Bool :=
  decide (log.level ≤ lvl)

/-- What a checked entry does after it is written (`zapcore.CheckWriteAction`). -/
inductive CheckWriteAction where
  | WriteThenNoop
  | WriteThenPanic
  | WriteThenFatal
  deriving DecidableEq

/-- A checked entry (`*zapcore.CheckedEntry`): `willWrite` tells whether a core
accepted the entry. -/
structure CheckedEntry where
  Level : zapcore.Level
  LoggerName : String
  Message : String
  context : List Field
  willWrite : Bool
  should : CheckWriteAction

/-- Go `(*zap.Logger).Check`: a disabled level below DPanic gives no entry;
Panic, Fatal and (in development) DPanic keep their terminal action even when
nothing will be written. -/
def Logger.Check (log : Logger) (lvl : zapcore.Level) (msg : String) : Option CheckedEntry :=
  if lvl < zapcore.DPanicLevel ∧ log.Enabled lvl = false then none
  else
    let willWrite := log.Enabled lvl
    let should :=
      if lvl = zapcore.PanicLevel then CheckWriteAction.WriteThenPanic
      else if lvl = zapcore.FatalLevel then CheckWriteAction.WriteThenFatal
      else if lvl = zapcore.DPanicLevel ∧ log.development = true then CheckWriteAction.WriteThenPanic
      else CheckWriteAction.WriteThenNoop
    if willWrite = false ∧ should = CheckWriteAction.WriteThenNoop then none
    else some ⟨lvl, log.name, msg, log.context, willWrite, should⟩

/-- Go `(*zapcore.CheckedEntry).Write`. -/
def CheckedEntry.Write (ce : CheckedEntry) (fields : List Field) (out : List Entry) : Outcome Unit :=
  let out1 := if ce.willWrite then out ++ [⟨ce.Level, ce.LoggerName, ce.Message, ce.context ++ fields⟩] else out
  match ce.should with
  | .WriteThenNoop => .ok () out1
  | .WriteThenPanic => .panic out1
  | .WriteThenFatal => .exit out1

/-- The body shared by `Debug`, `Info`, `Warn`, `Error`, `DPanic`, `Panic` and
`Fatal` of `*zap.Logger`. -/
def Logger.logAt (log : Logger) (lvl : zapcore.Level) (msg : String) (fields : List Field)
    (out : List Entry) : Outcome Unit :=
  match log.Check lvl msg with
  | some ce => ce.Write fields out
  | none => .ok () out

def Logger.Debug (log : Logger) := log.logAt zapcore.DebugLevel
def Logger.Info (log : Logger) := log.logAt zapcore.InfoLevel
def Logger.Warn (log : Logger) := log.logAt zapcore.WarnLevel
def Logger.Error (log : Logger) := log.logAt zapcore.ErrorLevel
def Logger.DPanic (log : Logger) := log.logAt zapcore.DPanicLevel
def Logger.Panic (log : Logger) := log.logAt zapcore.PanicLevel
def Logger.Fatal (log : Logger) := log.logAt zapcore.FatalLevel

/-- Go `(*zap.Logger).With`. -/
def Logger.With (log : Logger) (fields : List Field) : Logger :=
  if fields.length = 0 then log else { log with context := log.context ++ fields }

/-- Go `(*zap.Logger).Named`. -/
def Logger.Named (log : Logger) (s : String) : Logger :=
  if s = "" then log
  else if log.name = "" then { log with name := s }
  else { log with name := log.name ++ "." ++ s }

end zap

/-! ### `fmt` and the sugared logger -/

namespace fmt

/-- The formatting functions of Go `fmt` on loose values; they are parameters of
the embedding. -/
structure Printer where
  Sprintf : String → List zap.Value → String
  Sprint : List zap.Value → String

end fmt

namespace zap

/-- A sugared logger (`*zap.SugaredLogger`) wraps a logger handle. -/
structure SugaredLogger where
  base : Logger

/-- Go `(*zap.Logger).Sugar`. -/
def Logger.Sugar (log : Logger) : SugaredLogger := ⟨log⟩

/-- Go `getMessage` of `sugar.go`. -/
def getMessage (p : fmt.Printer) (template : String) (fmtArgs : List Value) : String :=
  if fmtArgs.length = 0 then template
  else if template ≠ "" then p.Sprintf template fmtArgs
  else
    match fmtArgs with
    | [.string str] => str
    | _ => p.Sprint fmtArgs

/-- The loop of `(*SugaredLogger).sweetenFields`: the fields, the invalid pairs
(position, key, value) and the dangling key when there is one. -/
def sweetenLoop : List Value → Nat → List Field → List Value →
    List Field × List Value × Option Value
  | [], _, fields, invalid => (fields, invalid, none)
  | a :: rest, i, fields, invalid =>
    match a.asField with
    | some f => sweetenLoop rest (i + 1) (fields ++ [f]) invalid
    | none =>
      match rest with
      | [] => (fields, invalid, some a)
      | v :: rest1 =>
        match a.asString with
        | none => sweetenLoop rest1 (i + 2) fields (invalid ++ [.array [.int i, a, v]])
        | some keyStr => sweetenLoop rest1 (i + 2) (fields ++ [Any keyStr v]) invalid

/-- Go `(*SugaredLogger).sweetenFields`: a dangling key and pairs with a
non-string key are reported at Error severity and left out. -/
def SugaredLogger.sweetenFields (s : SugaredLogger) (args : List Value) (out : List Entry) :
    Outcome (List Field) :=
  if args.length = 0 then .ok [] out
  else
    match sweetenLoop args 0 [] [] with
    | (fields, invalid, dangling) =>
      let r1 : Outcome Unit :=
        match dangling with
        | some a => s.base.Error "Ignored key without a value." [Any "ignored" a] out
        | none => .ok () out
      r1.andThen fun _ out1 =>
        let r2 : Outcome Unit :=
          if invalid.length > 0 then
            s.base.Error "Ignored key-value pairs with non-string keys." [Any "invalid" (.array invalid)] out1
          else .ok () out1
        r2.andThen fun _ out2 => .ok fields out2

/-- Go `(*SugaredLogger).log`. -/
def SugaredLogger.log (s : SugaredLogger) (p : fmt.Printer) (lvl : zapcore.Level)
    (template : String) (fmtArgs : List Value) (context : List Value) (out : List Entry) :
    Outcome Unit :=
  if lvl < zapcore.DPanicLevel ∧ s.base.Enabled lvl = false then .ok () out
  else
    let msg := getMessage p template fmtArgs
    match s.base.Check lvl msg with
    | some ce => (s.sweetenFields context out).andThen fun fields out1 => ce.Write fields out1
    | none => .ok () out

def SugaredLogger.Debugf (s : SugaredLogger) (p : fmt.Printer) (template : String) (args : List Value) :=
  s.log p zapcore.DebugLevel template args []
def SugaredLogger.Warnf (s : SugaredLogger) (p : fmt.Printer) (template : String) (args : List Value) :=
  s.log p zapcore.WarnLevel template args []
def SugaredLogger.Errorf (s : SugaredLogger) (p : fmt.Printer) (template : String) (args : List Value) :=
  s.log p zapcore.ErrorLevel template args []
def SugaredLogger.Panicf (s : SugaredLogger) (p : fmt.Printer) (template : String) (args : List Value) :=
  s.log p zapcore.PanicLevel template args []
def SugaredLogger.Fatalf (s : SugaredLogger) (p : fmt.Printer) (template : String) (args : List Value) :=
  s.log p zapcore.FatalLevel template args []

def SugaredLogger.Debugw (s : SugaredLogger) (p : fmt.Printer) (msg : String) (keysAndValues : List Value) :=
  s.log p zapcore.DebugLevel msg [] keysAndValues
def SugaredLogger.Warnw (s : SugaredLogger) (p : fmt.Printer) (msg : String) (keysAndValues : List Value) :=
  s.log p zapcore.WarnLevel msg [] keysAndValues
def SugaredLogger.Errorw (s : SugaredLogger) (p : fmt.Printer) (msg : String) (keysAndValues : List Value) :=
  s.log p zapcore.ErrorLevel msg [] keysAndValues
def SugaredLogger.Panicw (s : SugaredLogger) (p : fmt.Printer) (msg : String) (keysAndValues : List Value) :=
  s.log p zapcore.PanicLevel msg [] keysAndValues
def SugaredLogger.Fatalw (s : SugaredLogger) (p : fmt.Printer) (msg : String) (keysAndValues : List Value) :=
  s.log p zapcore.FatalLevel msg [] keysAndValues

end zap

/-! ## `src/log/log.go` -/

namespace log

open zap (Value Field Entry Outcome)

/-- The logger behind `V(n)` when the gate is open (`type infoLogger`). -/
structure infoLogger where
  level : zapcore.Level
  log : zap.Logger

/-- The concrete logger (`type zapLogger`): a logger handle, a sugared handle
and the embedded `infoLogger`. -/
structure zapLogger where
  zapLogger : zap.Logger
  zapSugaredLogger : zap.SugaredLogger
  infoLogger : infoLogger

/-- The loop of `handleFields`, two entries per round; `fileds` holds the
fields accumulated so far. -/
def handleFieldsLoop (l : zap.Logger) : List Value → List Field → List Field → List Entry →
    Outcome (List Field)
  | [], fileds, additional, out => .ok (fileds ++ additional) out
  | key :: rest, fileds, additional, out =>
    match key.asField with
    | some _ =>
      (l.DPanic "strongly-typed Zap Field passed to logr" [zap.Any "zap field" key] out).andThen
        fun _ out1 => .ok (fileds ++ additional) out1
    | none =>
      match rest with
      | [] =>
        (l.DPanic "odd number of arguments passed as key-value pairs for logging"
            [zap.Any "ignored key" key] out).andThen
          fun _ out1 => .ok (fileds ++ additional) out1
      | val :: rest1 =>
        match key.asString with
        | none =>
          (l.DPanic "non-string key argument passed to logging, ignoring all later arguments"
              [zap.Any "invalid key" key] out).andThen
            fun _ out1 => .ok (fileds ++ additional) out1
        | some keyString =>
          handleFieldsLoop l rest1 (fileds ++ [zap.Any keyString val]) additional out

/-- The function `handleFields` of `log.go`. -/
def handleFields (l : zap.Logger) (args : List Value) (additional : List Field)
    (out : List Entry) : Outcome (List Field) :=
  if args.length = 0 then .ok additional out
  else handleFieldsLoop l args [] additional out

/-- The method `(*infoLogger).Info`. -/
def infoLogger.Info (l : infoLogger) (msg : String) (fields : List Field) (out : List Entry) :
    Outcome Unit :=
  match l.log.Check l.level msg with
  | some checkedEntry => checkedEntry.Write fields out
  | none => .ok () out

/-- The method `(*infoLogger).Infof`. -/
def infoLogger.Infof (l : infoLogger) (p : fmt.Printer) (format : String) (v : List Value)
    (out : List Entry) : Outcome Unit :=
  match l.log.Check l.level (p.Sprintf format v) with
  | some checkedEntry => checkedEntry.Write [] out
  | none => .ok () out

/-- The method `(*infoLogger).Infow`. -/
def infoLogger.Infow (l : infoLogger) (msg : String) (keysAndValues : List Value)
    (out : List Entry) : Outcome Unit :=
  match l.log.Check l.level msg with
  | some checkedEntry =>
    (handleFields l.log keysAndValues [] out).andThen fun fields out1 => checkedEntry.Write fields out1
  | none => .ok () out

/-- The method `(*infoLogger).Enabled`. -/
def infoLogger.Enabled (l : infoLogger) : Bool := true

/-- The interface `InfoLogger` with its implementations that `V` can return:
the shared `disabledInfoLogger` and an `infoLogger`. -/
inductive InfoLogger where
  | disabledInfoLogger
  | info (l : infoLogger)

def InfoLogger.Enabled : InfoLogger → Bool
  | .disabledInfoLogger => false
  | .info l => l.Enabled

def InfoLogger.Info : InfoLogger → String → List Field → List Entry → Outcome Unit
  | .disabledInfoLogger, _, _, out => .ok () out
  | .info l, msg, fields, out => l.Info msg fields out

def InfoLogger.Infof : InfoLogger → fmt.Printer → String → List Value → List Entry → Outcome Unit
  | .disabledInfoLogger, _, _, _, out => .ok () out
  | .info l, p, format, v, out => l.Infof p format v out

def InfoLogger.Infow : InfoLogger → String → List Value → List Entry → Outcome Unit
  | .disabledInfoLogger, _, _, out => .ok () out
  | .info l, msg, kv, out => l.Infow msg kv out

end log

namespace log

open zap (Value Field Entry Outcome)

/-- The function `NewLogger` of `log.go`. -/
def NewLogger (l : zap.Logger) : zapLogger where
  zapLogger := l
  zapSugaredLogger := l.Sugar
  infoLogger := { log := l, level := zapcore.InfoLevel }

/-- The function `New` of `log.go`, for a configuration that the backend can
build (`loggerConfig.Build` fails, and `New` panics, when a sink cannot be
opened or the encoding is not registered).  An unparseable level falls back to
Info; the built logger has no initial fields. -/
def New (t : unicode.Tables) (opts : Option Options) : zapLogger :=
  let opts := match opts with
    | some o => o
    | none => NewOptions
  let level : zapcore.Level :=
    match zapcore.Level.UnmarshalText t opts.Level with
    | .ok lv => lv
    | .error _ => zapcore.InfoLevel
  let l : zap.Logger := { name := "", development := opts.Development, level := level, context := [] }
  let l := l.Named opts.Name
  { zapLogger := l
    zapSugaredLogger := l.Sugar
    infoLogger := { level := zapcore.InfoLevel, log := l } }

/-- The interface `Logger` has one implementation, `*zapLogger`. -/
abbrev Logger := zapLogger


def zapLogger.Debug (l : Logger) (msg : String) (fields : List Field) := l.zapLogger.Debug msg fields
def zapLogger.Debugf (l : Logger) (p : fmt.Printer) (format : String) (v : List Value) :=
  l.zapSugaredLogger.Debugf p format v
def zapLogger.Debugw (l : Logger) (p : fmt.Printer) (msg : String) (keysAndValues : List Value) :=
  l.zapSugaredLogger.Debugw p msg keysAndValues

def zapLogger.Info (l : Logger) (msg : String) (fields : List Field) := l.infoLogger.Info msg fields
def zapLogger.Infof (l : Logger) (p : fmt.Printer) (format : String) (v : List Value) :=
  l.infoLogger.Infof p format v
def zapLogger.Infow (l : Logger) (msg : String) (keysAndValues : List Value) :=
  l.infoLogger.Infow msg keysAndValues
def zapLogger.Enabled (l : Logger) : Bool := l.infoLogger.Enabled

def zapLogger.Warn (l : Logger) (msg : String) (fields : List Field) := l.zapLogger.Warn msg fields
def zapLogger.Warnf (l : Logger) (p : fmt.Printer) (format : String) (v : List Value) :=
  l.zapSugaredLogger.Warnf p format v
def zapLogger.Warnw (l : Logger) (p : fmt.Printer) (msg : String) (keysAndValues : List Value) :=
  l.zapSugaredLogger.Warnw p msg keysAndValues

def zapLogger.Error (l : Logger) (msg : String) (fields : List Field) := l.zapLogger.Error msg fields
def zapLogger.Errorf (l : Logger) (p : fmt.Printer) (format : String) (v : List Value) :=
  l.zapSugaredLogger.Errorf p format v
/-- The method `(*zapLogger).Errorw`: it calls `Errorf` of the sugared logger. -/
def zapLogger.Errorw (l : Logger) (p : fmt.Printer) (msg : String) (keysAndValues : List Value) :=
  l.zapSugaredLogger.Errorf p msg keysAndValues

def zapLogger.Panic (l : Logger) (msg : String) (fields : List Field) := l.zapLogger.Panic msg fields
def zapLogger.Panicf (l : Logger) (p : fmt.Printer) (format : String) (v : List Value) :=
  l.zapSugaredLogger.Panicf p format v
def zapLogger.Panicw (l : Logger) (p : fmt.Printer) (msg : String) (keysAndValues : List Value) :=
  l.zapSugaredLogger.Panicw p msg keysAndValues

def zapLogger.Fatal (l : Logger) (msg : String) (fields : List Field) := l.zapLogger.Fatal msg fields
def zapLogger.Fatalf (l : Logger) (p : fmt.Printer) (format : String) (v : List Value) :=
  l.zapSugaredLogger.Fatalf p format v
def zapLogger.Fatalw (l : Logger) (p : fmt.Printer) (msg : String) (keysAndValues : List Value) :=
  l.zapSugaredLogger.Fatalw p msg keysAndValues

/-- The method `(*zapLogger).V`; `level` is a Go `int`. -/
def zapLogger.V (l : Logger) (level : Int) : InfoLogger :=
  let lvl := zapcore.toLevel (-1 * level)
  if l.zapLogger.Enabled lvl then .info { log := l.zapLogger, level := lvl }
  else .disabledInfoLogger

/-- The method `(*zapLogger).WithValues`. -/
def zapLogger.WithValues (l : Logger) (keysAndValues : List Value) (out : List Entry) : Outcome Logger :=
  (handleFields l.zapLogger keysAndValues [] out).andThen fun fields out1 =>
    .ok (NewLogger (l.zapLogger.With fields)) out1

/-- The method `(*zapLogger).WithName`. -/
def zapLogger.WithName (l : Logger) (name : String) : Logger :=
  NewLogger (l.zapLogger.Named name)

/-- The method `(*zapLogger).clone`. -/
def zapLogger.clone (l : Logger) : Logger := l


/-- The package-level `Errorw`, on the global logger `_logger`. -/
def Errorw (_logger : zapLogger) (p : fmt.Printer) (msg : String) (keysAndValues : List Value) :=
  _logger.zapSugaredLogger.Errorf p msg keysAndValues

/-- The package-level `Warnw`, on the global logger `_logger`. -/
def Warnw (_logger : zapLogger) (p : fmt.Printer) (msg : String) (keysAndValues : List Value) :=
  _logger.zapSugaredLogger.Warnw p msg keysAndValues

/-- The package-level `WithName`, on the global logger `_logger`. -/
def WithName (_logger : zapLogger) (name : String) : Logger := _logger.WithName name

/-! ### Contexts (`src/log/context.go` and `zapLogger.L`) -/

/-- A key of a context binding: the unexported `logContextKey` of this package,
or a string key such as the well-known ones, or a key of another package. -/
inductive Key where
  | logContextKey
  | name (s : String)
  | foreign (id : Nat)
  deriving DecidableEq

/-- A value bound in a context: a plain value, or a `*zapLogger`. -/
inductive Bound where
  | value (v : Value)
  | logger (l : zapLogger)

/-- A non-nil `context.Context`: the bindings made with `context.WithValue`,
the latest first. -/
abbrev Context := List (Key × Bound)

/-- Go `ctx.Value(key)`; no binding gives the nil value. -/
def Context.Value (ctx : Context) (key : Key) : Bound :=
  match ctx.find? (fun b => b.1 == key) with
  | some b => b.2
  | none => .value .nil

/-- The comparison `v != nil` of an interface value. -/
def Bound.nonNil : Bound → Bool
  | .value .nil => false
  | _ => true

/-- The loose value handed to `zap.Any` for a bound value; a bound logger is
some other Go value. -/
def Bound.toValue : Bound → Value
  | .value v => v
  | .logger _ => .other 0

/-- The well-known context keys `KeyRequestID`, `KeyUsername` and
`KeyWatcherName`; they are declared outside `log.go`, so the strings are
parameters. -/
structure Keys where
  KeyRequestID : String
  KeyUsername : String
  KeyWatcherName : String

/-- The method `(*zapLogger).L` on a non-nil context: only the field `zapLogger`
of the clone is replaced. -/
def zapLogger.L (ks : Keys) (l : Logger) (ctx : Context) : Logger :=
  let lg := l.clone
  let requestID := ctx.Value (.name ks.KeyRequestID)
  let lg := if requestID.nonNil then
      { lg with zapLogger := lg.zapLogger.With [zap.Any ks.KeyRequestID requestID.toValue] }
    else lg
  let username := ctx.Value (.name ks.KeyUsername)
  let lg := if username.nonNil then
      { lg with zapLogger := lg.zapLogger.With [zap.Any ks.KeyUsername username.toValue] }
    else lg
  let watcherName := ctx.Value (.name ks.KeyWatcherName)
  let lg := if watcherName.nonNil then
      { lg with zapLogger := lg.zapLogger.With [zap.Any ks.KeyWatcherName watcherName.toValue] }
    else lg
  lg

/-- The method `(*zapLogger).WithContext` on a non-nil parent context
(`context.WithValue` panics on a nil parent). -/
def zapLogger.WithContext (l : Logger) (ctx : Context) : Context :=
  (Key.logContextKey, Bound.logger l) :: ctx

/-- The function `FromContext` of `context.go`; the argument is `none` for a nil
context, the result is `none` when the type assertion `logger.(*zapLogger)`
panics. -/
def FromContext (_logger : zapLogger) (ctx : Option Context) : Option Logger :=
  match ctx with
  | some c =>
    let logger := c.Value .logContextKey
    if logger.nonNil then
      match logger with
      | .logger l => some l
      | .value _ => none
    else some (WithName _logger "Unknown-Context")
  | none => some (WithName _logger "Unknown-Context")

end log

/-! ## Vocabulary of the statements -/

namespace log

open zap (Value Field Entry Outcome)

/-- The complete pairs of a loose key-value list, in order; a trailing
unmatched entry belongs to no pair. -/
def pairs : List Value → List (Value × Value)
  | k :: v :: rest => (k, v) :: pairs rest
  | _ => []

/-- The text of a key that is a string. -/
def keyText : Value → String
  | .string s => s
  | _ => ""

/-- The field of a pair with a string key: `zap.Any(key, val)`. -/
def pairField (p : Value × Value) : Field := zap.Any (keyText p.1) p.2

/-- A well-formed loose list: an even number of entries, every key a string. -/
def wellFormed : List Value → Bool
  | [] => true
  | [_] => false
  | k :: _ :: rest => k.asString.isSome && wellFormed rest

/-- The fields of a well-formed loose list. -/
def fieldsOf (kv : List Value) : List Field := (pairs kv).map pairField

/-- A logger as `NewLogger` builds it (and so `New`, `WithValues` and
`WithName`): the sugared handle and the embedded `infoLogger` are on the
logger's own handle, at Info severity. -/
def builtByNewLogger (l : Logger) : Prop := l = NewLogger l.zapLogger

/-- The contexts a program can build: the background context, a binding made by
other code (which cannot name the unexported `logContextKey`), and a binding
made by `WithContext`. -/
inductive Context.Built : Context → Prop where
  | background : Context.Built []
  | withValue (key : Key) (val : Bound) (parent : Context) :
      key ≠ Key.logContextKey → Context.Built parent → Context.Built ((key, val) :: parent)
  | withContext (l : Logger) (parent : Context) :
      Context.Built parent → Context.Built (l.WithContext parent)

/-- A context, possibly nil, in which no logger is bound. -/
def noBoundLogger : Option Context → Prop
  | none => True
  | some c => ∀ b ∈ c, b.1 ≠ Key.logContextKey

/-- Some strings for the well-known context keys. -/
def sampleKeys : Keys := ⟨"requestID", "username", "watcher"⟩

/-- A context that carries the request id `r1` under the well-known key. -/
def requestContext : Context := [(Key.name "requestID", Bound.value (Value.string "r1"))]

/-- Tables for concrete inputs: outside Latin-1 no rune changes case and none
is printable.  The concrete inputs of this file are ASCII, which never reaches
the tables. -/
def asciiTables : unicode.Tables := ⟨id, fun _ => false⟩

/-- A production logger at Info severity with no name and no bound fields. -/
def infoBackend : zap.Logger := { name := "", development := false, level := zapcore.InfoLevel, context := [] }

/-- A development-mode logger at Info severity. -/
def devBackend : zap.Logger := { name := "", development := true, level := zapcore.InfoLevel, context := [] }

/-- A production logger whose core only lets Fatal through. -/
def fatalBackend : zap.Logger := { name := "", development := false, level := zapcore.FatalLevel, context := [] }

/-- A production logger whose minimum severity is Error. -/
def errorBackend : zap.Logger := { name := "", development := false, level := zapcore.ErrorLevel, context := [] }

end log

/-! ## `src/app/opstions.go`

A `*pflag.FlagSet` is an address in a heap of flag sets, so that the set a call
returns can be told from a set with the same contents.
-/

namespace pflag

/-- Go `pflag.ErrorHandling`. -/
inductive ErrorHandling where
  | ContinueOnError
  | ExitOnError
  | PanicOnError
  deriving DecidableEq

/-- A flag set as far as `pflag.NewFlagSet` fills it. -/
structure FlagSet where
  name : String
  errorHandling : ErrorHandling
  deriving DecidableEq

/-- Go `pflag.NewFlagSet`: the set that the returned pointer points to. -/
def NewFlagSet (name : String) (errorHandling : ErrorHandling) : FlagSet :=
  ⟨name, errorHandling⟩

end pflag

namespace app

/-- The heap of flag sets; the address of a set is its index. -/
abbrev Heap := List pflag.FlagSet

/-- A pointer `*pflag.FlagSet`: `none` is the nil pointer. -/
abbrev Pointer := Option Nat

/-- A non-nil Go `map[string]*pflag.FlagSet`: its bindings, one per key. -/
abbrev FlagSetMap := List (String × Pointer)

/-- The map assignment `m[name] = p`. -/
def FlagSetMap.set (m : FlagSetMap) (name : String) (p : Pointer) : FlagSetMap :=
  if (m.lookup name).isSome then m.map (fun b => if b.1 = name then (name, p) else b)
  else m ++ [(name, p)]

/-- The struct `NamedFlagSets` of `opstions.go`; `FlagSets` is `none` for the
nil map. -/
structure NamedFlagSets where
  Order : List String
  FlagSets : Option FlagSetMap

/-- The zero value of `NamedFlagSets`. -/
def NamedFlagSets.zero : NamedFlagSets := ⟨[], none⟩

/-- The keys of the map `FlagSets`; the nil map has none. -/
def NamedFlagSets.keys (nfs : NamedFlagSets) : List String :=
  match nfs.FlagSets with
  | some m => m.map Prod.fst
  | none => []

/-- The method `(*NamedFlagSets).FlagSet` on a non-nil receiver: the returned
pointer, the receiver afterwards and the heap afterwards. -/
def NamedFlagSets.FlagSet (nfs : NamedFlagSets) (heap : Heap) (name : String) :
    Pointer × NamedFlagSets × Heap :=
  let m : FlagSetMap :=
    match nfs.FlagSets with
    | none => []
    | some m => m
  match m.lookup name with
  | none =>
    let p : Pointer := some heap.length
    let heap1 := heap ++ [pflag.NewFlagSet name .ExitOnError]
    let m1 := m.set name p
    ((m1.lookup name).getD none, { Order := nfs.Order ++ [name], FlagSets := some m1 }, heap1)
  | some _ =>
    ((m.lookup name).getD none, { nfs with FlagSets := some m }, heap)

/-- The receiver and the heap after the calls `FlagSet(name)` for the names of
the list, in order. -/
def NamedFlagSets.calls (nfs : NamedFlagSets) (heap : Heap) (names : List String) :
    NamedFlagSets × Heap :=
  names.foldl (fun st name => (st.1.FlagSet st.2 name).2) (nfs, heap)

/-- Each distinct name once, in the order of its first request. -/
def firstRequests : List String → List String
  | [] => []
  | name :: rest => name :: (firstRequests rest).filter (fun x => decide (x ≠ name))

end app

/-! ## Theorems -/

namespace log

open zap (Value Field Entry Outcome)

/-- C1: for every `Options` value, `Validate` returns the level error (when the
level name is not recognised) followed by the format error (when the format is
not recognised, quoting `Format` as given) and nothing else; the list has at
most two entries, and for Level = "test", Format = "test" it is the two errors
of the package test, which prints them as the test expects. -/
theorem Validate_level_error_then_format_error (t : unicode.Tables) (o : Options) :
    o.Validate t =
        (if recognisedLevel t o.Level then []
          else ["unrecognized level: " ++ strconv.Quote t o.Level]) ++
        (if recognisedFormat t o.Format then []
          else ["not a valid log format: " ++ strconv.Quote t o.Format])
      ∧ (o.Validate t).length ≤ 2
      ∧ ({ o with Level := "test", Format := "test" } : Options).Validate t =
          ["unrecognized level: \"test\"", "not a valid log format: \"test\""]
      ∧ sprintErrs (testOptions.Validate t) =
          "[unrecognized level: \"test\" not a valid log format: \"test\"]" := by
  have hshape : o.Validate t =
      (if recognisedLevel t o.Level then []
        else ["unrecognized level: " ++ strconv.Quote t o.Level]) ++
      (if recognisedFormat t o.Format then []
        else ["not a valid log format: " ++ strconv.Quote t o.Format]) := by
    unfold Options.Validate zapcore.Level.UnmarshalText recognisedLevel recognisedFormat
    simp only [ConsoleFormat, JsonFormat]
    cases h1 : zapcore.unmarshalText o.Level <;>
      cases h2 : zapcore.unmarshalText (strings.ToLower t o.Level) <;>
      by_cases h3 : strings.ToLower t o.Format = "console" <;>
      by_cases h4 : strings.ToLower t o.Format = "json" <;>
      simp [h3, h4]
  refine ⟨hshape, ?_, rfl, rfl⟩
  rw [hshape]
  split <;> split <;> simp

end log

namespace log

open zap (Value Field Entry Outcome)

/-! ### The diagnostic call -/

/-- On a production logger whose core lets DPanic through, `DPanic` writes one
record and returns. -/
theorem DPanic_writes (l : zap.Logger) (hdev : l.development = false)
    (hlvl : l.level ≤ zapcore.DPanicLevel) (msg : String) (fields : List Field)
    (out : List Entry) :
    l.DPanic msg fields out =
      .ok () (out ++ [⟨zapcore.DPanicLevel, l.name, msg, l.context ++ fields⟩]) := by
  have h1 : l.level ≤ (3 : Int) := hlvl
  have h2 : ¬ (3 : Int) < l.level := Int.not_lt.mpr h1
  simp [zap.Logger.DPanic, zap.Logger.logAt, zap.Logger.Check, zap.Logger.Enabled,
    zap.CheckedEntry.Write, hdev, h1, h2, zapcore.DPanicLevel, zapcore.PanicLevel,
    zapcore.FatalLevel]

/-- In development mode `DPanic` panics, after writing when the core lets
DPanic through. -/
theorem DPanic_development (l : zap.Logger) (hdev : l.development = true)
    (msg : String) (fields : List Field) (out : List Entry) :
    l.DPanic msg fields out =
      .panic (if l.level ≤ zapcore.DPanicLevel
        then out ++ [⟨zapcore.DPanicLevel, l.name, msg, l.context ++ fields⟩] else out) := by
  by_cases h1 : l.level ≤ (3 : Int)
  · have h2 : ¬ (3 : Int) < l.level := Int.not_lt.mpr h1
    simp [zap.Logger.DPanic, zap.Logger.logAt, zap.Logger.Check, zap.Logger.Enabled,
      zap.CheckedEntry.Write, hdev, h1, h2, zapcore.DPanicLevel, zapcore.PanicLevel,
      zapcore.FatalLevel]
  · have h2 : (3 : Int) < l.level := Int.not_le.mp h1
    simp [zap.Logger.DPanic, zap.Logger.logAt, zap.Logger.Check, zap.Logger.Enabled,
      zap.CheckedEntry.Write, hdev, h1, h2, zapcore.DPanicLevel, zapcore.PanicLevel,
      zapcore.FatalLevel]

/-- On a production logger whose core does not let DPanic through, `DPanic`
writes nothing. -/
theorem DPanic_disabled (l : zap.Logger) (hdev : l.development = false)
    (hlvl : zapcore.DPanicLevel < l.level) (msg : String) (fields : List Field)
    (out : List Entry) :
    l.DPanic msg fields out = .ok () out := by
  have h2 : (3 : Int) < l.level := hlvl
  have h1 : ¬ l.level ≤ (3 : Int) := Int.not_le.mpr h2
  simp [zap.Logger.DPanic, zap.Logger.logAt, zap.Logger.Check, zap.Logger.Enabled,
    hdev, h1, h2, zapcore.DPanicLevel, zapcore.PanicLevel, zapcore.FatalLevel]

/-! ### The loop of `handleFields` -/

theorem pairs_cons_cons (k v : Value) (rest : List Value) :
    pairs (k :: v :: rest) = (k, v) :: pairs rest := by
  simp [pairs]

/-- As long as the keys are strings the loop accumulates one field per pair. -/
theorem handleFieldsLoop_string_keys (l : zap.Logger) (additional : List Field)
    (out : List Entry) :
    ∀ (k : Nat) (args : List Value) (fileds : List Field),
      (∀ j, j < k → ∃ s, args[2 * j]? = some (Value.string s)) →
      2 * k ≤ args.length →
      handleFieldsLoop l args fileds additional out =
        handleFieldsLoop l (args.drop (2 * k))
          (fileds ++ ((pairs args).take k).map pairField) additional out := by
  intro k
  induction k with
  | zero => intro args fileds _ _; simp
  | succ k ih =>
    intro args fileds hkeys hlen
    match args, hkeys, hlen with
    | [], _, hlen => simp at hlen
    | [_], _, hlen => simp at hlen; omega
    | a :: b :: rest, hkeys, hlen =>
      obtain ⟨s, hs⟩ := hkeys 0 (Nat.succ_pos k)
      simp at hs
      subst hs
      have hrest : ∀ j, j < k → ∃ s, rest[2 * j]? = some (Value.string s) := by
        intro j hj
        have := hkeys (j + 1) (Nat.succ_lt_succ hj)
        simpa [Nat.mul_add] using this
      have hlen2 : 2 * k ≤ rest.length := by simp at hlen; omega
      have hdrop : (Value.string s :: b :: rest).drop (2 * (k + 1)) = rest.drop (2 * k) := by
        simp [Nat.mul_add]
      rw [hdrop, pairs_cons_cons]
      simp only [handleFieldsLoop, Value.asField, Value.asString]
      rw [ih rest _ hrest hlen2]
      simp [pairField, keyText, List.append_assoc]

end log

namespace log

open zap (Value Field Entry Outcome)

/-- On a well-formed list the loop returns every pair as a field and writes
nothing, whatever the values are. -/
theorem handleFieldsLoop_wellFormed (l : zap.Logger) (additional : List Field)
    (out : List Entry) :
    ∀ (n : Nat) (args : List Value) (fileds : List Field), args.length ≤ n →
      wellFormed args = true →
      handleFieldsLoop l args fileds additional out =
        .ok (fileds ++ fieldsOf args ++ additional) out := by
  intro n
  induction n with
  | zero =>
    intro args fileds hlen _
    have : args = [] := List.length_eq_zero.mp (Nat.le_zero.mp hlen)
    subst this
    simp [handleFieldsLoop, fieldsOf, pairs]
  | succ n ih =>
    intro args fileds hlen hwf
    match args, hlen, hwf with
    | [], _, _ => simp [handleFieldsLoop, fieldsOf, pairs]
    | [_], _, hwf => simp [wellFormed] at hwf
    | a :: b :: rest, hlen, hwf =>
      simp only [wellFormed, Bool.and_eq_true] at hwf
      obtain ⟨ha, hrest⟩ := hwf
      cases a <;> simp [Value.asString] at ha
      rename_i s
      have hlen2 : rest.length ≤ n := by simp at hlen; omega
      simp only [handleFieldsLoop, Value.asField, Value.asString]
      rw [ih rest _ hlen2 hrest]
      simp [fieldsOf, pairs, pairField, keyText, List.append_assoc]

/-- On a well-formed list `handleFields` returns the fields of the list followed
by `additional` and writes nothing. -/
theorem handleFields_wellFormed (l : zap.Logger) (args : List Value)
    (additional : List Field) (out : List Entry) (hwf : wellFormed args = true) :
    handleFields l args additional out = .ok (fieldsOf args ++ additional) out := by
  unfold handleFields
  split
  · rename_i h
    have : args = [] := List.length_eq_zero.mp h
    subst this
    simp [fieldsOf, pairs]
  · rw [handleFieldsLoop_wellFormed l additional out args.length args [] (Nat.le_refl _) hwf]
    simp

/-- The general shape of a truncated call: string keys up to index `2 * k`, then
the loop stops at the entry `x` at index `2 * k`. -/
theorem handleFields_stops_at (l : zap.Logger) (args : List Value) (additional : List Field)
    (out : List Entry) (k : Nat) (x : Value)
    (hbefore : ∀ j, j < k → ∃ s, args[2 * j]? = some (Value.string s))
    (hx : args[2 * k]? = some x) :
    handleFields l args additional out =
      handleFieldsLoop l (x :: args.drop (2 * k + 1))
        (((pairs args).take k).map pairField) additional out := by
  have hlt : 2 * k < args.length := by
    rcases List.getElem?_eq_some_iff.mp hx with ⟨h, _⟩
    exact h
  have hne : ¬ args.length = 0 := by omega
  have hdrop : args.drop (2 * k) = x :: args.drop (2 * k + 1) := by
    rw [List.drop_eq_getElem_cons hlt]
    rcases List.getElem?_eq_some_iff.mp hx with ⟨_, h⟩
    rw [h]
  unfold handleFields
  rw [if_neg hne, handleFieldsLoop_string_keys l additional out k args [] hbefore (by omega), hdrop]
  simp

end log

namespace log

open zap (Value Field Entry Outcome)

/-- C2 (amended): on a production logger whose core lets DPanic through, for
every loose list of odd length whose even-position entries are all strings and
none of whose entries is a structured Field, and for every `additional`,
`handleFields` returns the fields of the first
`(len - 1) / 2` pairs, in order, followed by `additional`, drops the trailing
key and writes exactly one diagnostic record; an enabled `Infow` on such a list
writes that diagnostic and then the record with the fields of the pairs. -/
theorem handleFields_odd_length (l : zap.Logger) (args : List Value)
    (additional : List Field) (out : List Entry) (msg : String)
    (hdev : l.development = false) (hlvl : l.level ≤ zapcore.DPanicLevel)
    (hodd : args.length % 2 = 1)
    (hkeys : ∀ i, i % 2 = 0 → i < args.length → ∃ s, args[i]? = some (Value.string s))
    (hnofield : ∀ v ∈ args, v.asField = none) :
    handleFields l args additional out =
        .ok (((pairs args).take ((args.length - 1) / 2)).map pairField ++ additional)
          (out ++ [⟨zapcore.DPanicLevel, l.name,
            "odd number of arguments passed as key-value pairs for logging",
            l.context ++ [zap.Any "ignored key" (args.getLastD .nil)]⟩])
      ∧ (l.level ≤ zapcore.InfoLevel →
          infoLogger.Infow ⟨zapcore.InfoLevel, l⟩ msg args out =
            .ok () (out ++ [⟨zapcore.DPanicLevel, l.name,
              "odd number of arguments passed as key-value pairs for logging",
              l.context ++ [zap.Any "ignored key" (args.getLastD .nil)]⟩,
              ⟨zapcore.InfoLevel, l.name, msg,
                l.context ++ ((pairs args).take ((args.length - 1) / 2)).map pairField⟩])) := by
  obtain ⟨k, hk⟩ : ∃ k, args.length = 2 * k + 1 := ⟨args.length / 2, by omega⟩
  have hk2 : (args.length - 1) / 2 = k := by omega
  obtain ⟨s, hs⟩ := hkeys (2 * k) (by omega) (by omega)
  have hbefore : ∀ j, j < k → ∃ s, args[2 * j]? = some (Value.string s) :=
    fun j hj => hkeys (2 * j) (by omega) (by omega)
  have hlast : args.getLastD .nil = Value.string s := by
    rw [List.getLastD_eq_getLast?, List.getLast?_eq_getElem?, hk]
    simpa using congrArg (fun o => o.getD Value.nil) hs
  have hdrop : args.drop (2 * k + 1) = [] := List.drop_eq_nil_of_le (by omega)
  have hmain : handleFields l args additional out =
      .ok (((pairs args).take ((args.length - 1) / 2)).map pairField ++ additional)
        (out ++ [⟨zapcore.DPanicLevel, l.name,
          "odd number of arguments passed as key-value pairs for logging",
          l.context ++ [zap.Any "ignored key" (args.getLastD .nil)]⟩]) := by
    rw [handleFields_stops_at l args additional out k _ hbefore hs, hdrop, hk2, hlast]
    simp only [handleFieldsLoop, Value.asField]
    rw [DPanic_writes l hdev hlvl]
    rfl
  refine ⟨hmain, ?_⟩
  intro hinfo
  have h0 : l.level ≤ (0 : Int) := hinfo
  have hcheck : l.Check zapcore.InfoLevel msg =
      some ⟨zapcore.InfoLevel, l.name, msg, l.context, true, .WriteThenNoop⟩ := by
    simp [zap.Logger.Check, zap.Logger.Enabled, zapcore.InfoLevel, zapcore.DPanicLevel,
      zapcore.PanicLevel, zapcore.FatalLevel, h0]
  have hall := handleFields_stops_at l args [] out k _ hbefore hs
  rw [hdrop] at hall
  simp only [infoLogger.Infow, hcheck, hall, hk2, hlast, handleFieldsLoop, Value.asField]
  rw [DPanic_writes l hdev hlvl]
  simp [Outcome.andThen, zap.CheckedEntry.Write]

/-- C2 (witness): the call `Infow("m", "a", 1, "b")` of the specification on the
production logger at Info severity. -/
theorem handleFields_odd_length_witness :
    handleFields infoBackend [.string "a", .int 1, .string "b"] [] [] =
        .ok [zap.Any "a" (.int 1)]
          [⟨zapcore.DPanicLevel, "",
            "odd number of arguments passed as key-value pairs for logging",
            [zap.Any "ignored key" (.string "b")]⟩]
      ∧ infoLogger.Infow ⟨zapcore.InfoLevel, infoBackend⟩ "m"
          [.string "a", .int 1, .string "b"] [] =
        .ok () [⟨zapcore.DPanicLevel, "",
            "odd number of arguments passed as key-value pairs for logging",
            [zap.Any "ignored key" (.string "b")]⟩,
          ⟨zapcore.InfoLevel, "", "m", [zap.Any "a" (.int 1)]⟩] := by
  have h := handleFields_odd_length infoBackend [.string "a", .int 1, .string "b"] [] [] "m"
    rfl (by decide) rfl (by
      intro i hi hlt
      have hlt3 : i < 3 := hlt
      have : i = 0 ∨ i = 2 := by omega
      rcases this with rfl | rfl
      · exact ⟨"a", rfl⟩
      · exact ⟨"b", rfl⟩) (by
      intro v hv
      simp at hv
      rcases hv with rfl | rfl | rfl <;> rfl)
  exact ⟨h.1, h.2 (by decide)⟩

/-- C2 (counterexample): on a development-mode logger the odd-length call
panics after the diagnostic, so `handleFields` returns no field list and
`Infow` writes no record; on a production logger whose core only lets Fatal
through, `handleFields` returns the field and writes no diagnostic record. -/
theorem handleFields_odd_length_counterexample :
    handleFields devBackend [.string "a", .int 1, .string "b"] [] [] =
        .panic [⟨zapcore.DPanicLevel, "",
          "odd number of arguments passed as key-value pairs for logging",
          [zap.Any "ignored key" (.string "b")]⟩]
      ∧ infoLogger.Infow ⟨zapcore.InfoLevel, devBackend⟩ "m"
          [.string "a", .int 1, .string "b"] [] =
        .panic [⟨zapcore.DPanicLevel, "",
          "odd number of arguments passed as key-value pairs for logging",
          [zap.Any "ignored key" (.string "b")]⟩]
      ∧ handleFields fatalBackend [.string "a", .int 1, .string "b"] [] [] =
        .ok [zap.Any "a" (.int 1)] [] := by
  refine ⟨rfl, rfl, rfl⟩

end log

namespace log

open zap (Value Field Entry Outcome)

/-- C3 (amended): on a production logger whose core lets DPanic through, for
every loose list whose keys before index `2 * k` are all strings and whose entry
at index `2 * k` is neither a string nor a structured Field and is not the last
element, `handleFields` returns the fields of the `k` pairs before it, in order,
followed by `additional`: that pair and every later pair are dropped, and
exactly one diagnostic record is written; an enabled `Infow` on such a list
writes that diagnostic and then the record with the fields of the `k` pairs. -/
theorem handleFields_non_string_key (l : zap.Logger) (args : List Value)
    (additional : List Field) (out : List Entry) (msg : String) (k : Nat) (x : Value)
    (hdev : l.development = false) (hlvl : l.level ≤ zapcore.DPanicLevel)
    (hbefore : ∀ j, j < k → ∃ s, args[2 * j]? = some (Value.string s))
    (hx : args[2 * k]? = some x) (hstr : x.asString = none) (hfld : x.asField = none)
    (hnotlast : 2 * k + 1 < args.length) :
    handleFields l args additional out =
        .ok (((pairs args).take k).map pairField ++ additional)
          (out ++ [⟨zapcore.DPanicLevel, l.name,
            "non-string key argument passed to logging, ignoring all later arguments",
            l.context ++ [zap.Any "invalid key" x]⟩])
      ∧ (l.level ≤ zapcore.InfoLevel →
          infoLogger.Infow ⟨zapcore.InfoLevel, l⟩ msg args out =
            .ok () (out ++ [⟨zapcore.DPanicLevel, l.name,
              "non-string key argument passed to logging, ignoring all later arguments",
              l.context ++ [zap.Any "invalid key" x]⟩,
              ⟨zapcore.InfoLevel, l.name, msg,
                l.context ++ ((pairs args).take k).map pairField⟩])) := by
  obtain ⟨v, rest, hdrop⟩ : ∃ v rest, args.drop (2 * k + 1) = v :: rest := by
    cases h : args.drop (2 * k + 1) with
    | nil =>
      have := List.drop_eq_nil_iff.mp h
      omega
    | cons v rest => exact ⟨v, rest, rfl⟩
  have hloop : ∀ additional : List Field,
      handleFields l args additional out =
        .ok (((pairs args).take k).map pairField ++ additional)
          (out ++ [⟨zapcore.DPanicLevel, l.name,
            "non-string key argument passed to logging, ignoring all later arguments",
            l.context ++ [zap.Any "invalid key" x]⟩]) := by
    intro additional
    rw [handleFields_stops_at l args additional out k x hbefore hx, hdrop]
    simp only [handleFieldsLoop, hfld, hstr]
    rw [DPanic_writes l hdev hlvl]
    rfl
  refine ⟨hloop additional, ?_⟩
  intro hinfo
  have h0 : l.level ≤ (0 : Int) := hinfo
  have hcheck : l.Check zapcore.InfoLevel msg =
      some ⟨zapcore.InfoLevel, l.name, msg, l.context, true, .WriteThenNoop⟩ := by
    simp [zap.Logger.Check, zap.Logger.Enabled, zapcore.InfoLevel, zapcore.DPanicLevel,
      zapcore.PanicLevel, zapcore.FatalLevel, h0]
  simp only [infoLogger.Infow, hcheck, hloop []]
  simp [Outcome.andThen, zap.CheckedEntry.Write]

/-- C3 (witness): the call `Infow("m", 1, "x")` of the specification on the
production logger at Info severity. -/
theorem handleFields_non_string_key_witness :
    handleFields infoBackend [.int 1, .string "x"] [] [] =
        .ok []
          [⟨zapcore.DPanicLevel, "",
            "non-string key argument passed to logging, ignoring all later arguments",
            [zap.Any "invalid key" (.int 1)]⟩]
      ∧ infoLogger.Infow ⟨zapcore.InfoLevel, infoBackend⟩ "m" [.int 1, .string "x"] [] =
        .ok () [⟨zapcore.DPanicLevel, "",
            "non-string key argument passed to logging, ignoring all later arguments",
            [zap.Any "invalid key" (.int 1)]⟩,
          ⟨zapcore.InfoLevel, "", "m", []⟩] := by
  have h := handleFields_non_string_key infoBackend [.int 1, .string "x"] [] [] "m" 0 (.int 1)
    rfl (by decide) (fun j hj => absurd hj (Nat.not_lt_zero j)) rfl rfl rfl (by decide)
  exact ⟨h.1, h.2 (by decide)⟩

/-- C3 (counterexample): in `[Field, "x", 1, "y"]` the first entry in key
position that is neither a string nor a structured Field is at index 2 and is
not the last one, yet the loop stops at the Field at index 0 and returns no
field instead of one; and on a development-mode logger the call
`[1, "x"]` panics instead of returning. -/
theorem handleFields_non_string_key_counterexample :
    handleFields infoBackend
        [.field "f" (.int 0), .string "x", .int 1, .string "y"] [] [] =
        .ok []
          [⟨zapcore.DPanicLevel, "", "strongly-typed Zap Field passed to logr",
            [zap.Any "zap field" (.field "f" (.int 0))]⟩]
      ∧ handleFields devBackend [.int 1, .string "x"] [] [] =
        .panic [⟨zapcore.DPanicLevel, "",
          "non-string key argument passed to logging, ignoring all later arguments",
          [zap.Any "invalid key" (.int 1)]⟩] := by
  refine ⟨rfl, rfl⟩

/-- C4 (amended): on a production logger whose core lets DPanic through, a
structured Field in key position (index `2 * k`, the keys before it all
strings) is detected: one diagnostic record is written and `handleFields`
returns only the fields of the `k` pairs before it, followed by `additional`.
A structured Field in the value position of a pair whose key is a string is not
detected: on every list with an even number of entries and string keys,
whatever the values, every pair becomes a field and nothing is written, so the
pair `(s, Field)` yields the field with key `s` that carries the Field. -/
theorem handleFields_field_in_key_position (l : zap.Logger) (additional : List Field)
    (out : List Entry) (hdev : l.development = false) (hlvl : l.level ≤ zapcore.DPanicLevel) :
    (∀ (args : List Value) (k : Nat) (x : Value),
        (∀ j, j < k → ∃ s, args[2 * j]? = some (Value.string s)) →
        args[2 * k]? = some x → x.asField.isSome = true →
        handleFields l args additional out =
          .ok (((pairs args).take k).map pairField ++ additional)
            (out ++ [⟨zapcore.DPanicLevel, l.name, "strongly-typed Zap Field passed to logr",
              l.context ++ [zap.Any "zap field" x]⟩]))
      ∧ (∀ args : List Value, wellFormed args = true →
          handleFields l args additional out = .ok (fieldsOf args ++ additional) out)
      ∧ (∀ (s key : String) (val : Value),
          handleFields l [.string s, .field key val] additional out =
            .ok (zap.Any s (.field key val) :: additional) out) := by
  refine ⟨?_, ?_, ?_⟩
  · intro args k x hbefore hx hfld
    rw [handleFields_stops_at l args additional out k x hbefore hx]
    cases x <;> simp [Value.asField] at hfld
    simp only [handleFieldsLoop, Value.asField]
    rw [DPanic_writes l hdev hlvl]
    rfl
  · intro args hwf
    exact handleFields_wellFormed l args additional out hwf
  · intro s key val
    rw [handleFields_wellFormed l _ additional out (by simp [wellFormed, Value.asString])]
    simp [fieldsOf, pairs, pairField, keyText]

/-- C4 (witness): a Field in key position after one good pair is detected; a
Field in value position is returned as the value of its pair. -/
theorem handleFields_field_in_key_position_witness :
    handleFields infoBackend [.string "a", .int 1, .field "f" (.int 0), .int 2] [] [] =
        .ok [zap.Any "a" (.int 1)]
          [⟨zapcore.DPanicLevel, "", "strongly-typed Zap Field passed to logr",
            [zap.Any "zap field" (.field "f" (.int 0))]⟩]
      ∧ handleFields infoBackend [.string "k", .field "f" (.int 0)] [] [] =
        .ok [zap.Any "k" (.field "f" (.int 0))] [] := by
  have h := handleFields_field_in_key_position infoBackend [] [] rfl (by decide)
  refine ⟨?_, h.2.2 "k" "f" (.int 0)⟩
  exact h.1 [.string "a", .int 1, .field "f" (.int 0), .int 2] 1 (.field "f" (.int 0))
    (fun j hj => by
      have : j = 0 := by omega
      subst this
      exact ⟨"a", rfl⟩) rfl rfl

/-- C4 (counterexample): the list `["k", Field]` has a structured Field in the
value position of a pair whose key is a string; `handleFields` writes no
diagnostic record and returns a field that carries the Field as its value. -/
theorem handleFields_field_in_value_position_counterexample :
    handleFields infoBackend [.string "k", .field "f" (.int 0)] [] [] =
        .ok [⟨"k", .field "f" (.int 0)⟩] []
      ∧ (⟨"k", .field "f" (.int 0)⟩ : Field).Interface.asField = some ⟨"f", .int 0⟩ := by
  refine ⟨rfl, rfl⟩

end log

namespace log

open zap (Value Field Entry Outcome)

/-! ### Derived loggers -/

theorem With_fields (z : zap.Logger) (fields : List Field) :
    z.With fields = { z with context := z.context ++ fields } := by
  unfold zap.Logger.With
  split
  · rename_i h
    have : fields = [] := List.length_eq_zero.mp h
    subst this
    simp
  · rfl

/-- An enabled `Infow` with a well-formed list writes one Info record: the bound
fields of the handle, then the fields of the list. -/
theorem Infow_wellFormed (z : zap.Logger) (msg : String) (kv : List Value) (out : List Entry)
    (hinfo : z.level ≤ zapcore.InfoLevel) (hwf : wellFormed kv = true) :
    infoLogger.Infow ⟨zapcore.InfoLevel, z⟩ msg kv out =
      .ok () (out ++ [⟨zapcore.InfoLevel, z.name, msg, z.context ++ fieldsOf kv⟩]) := by
  have h0 : z.level ≤ (0 : Int) := hinfo
  have hcheck : z.Check zapcore.InfoLevel msg =
      some ⟨zapcore.InfoLevel, z.name, msg, z.context, true, .WriteThenNoop⟩ := by
    simp [zap.Logger.Check, zap.Logger.Enabled, zapcore.InfoLevel, zapcore.DPanicLevel,
      zapcore.PanicLevel, zapcore.FatalLevel, h0]
  simp only [infoLogger.Infow, hcheck, handleFields_wellFormed z kv [] out hwf]
  simp [Outcome.andThen, zap.CheckedEntry.Write]

/-- A disabled `Infow` writes nothing. -/
theorem Infow_disabled (z : zap.Logger) (msg : String) (kv : List Value) (out : List Entry)
    (hinfo : ¬ z.level ≤ zapcore.InfoLevel) :
    infoLogger.Infow ⟨zapcore.InfoLevel, z⟩ msg kv out = .ok () out := by
  have h0 : ¬ z.level ≤ (0 : Int) := hinfo
  simp [infoLogger.Infow, zap.Logger.Check, zap.Logger.Enabled, zapcore.InfoLevel,
    zapcore.DPanicLevel, h0]

theorem New_builtByNewLogger (t : unicode.Tables) (opts : Option Options) :
    builtByNewLogger (New t opts) := rfl

theorem NewLogger_builtByNewLogger (z : zap.Logger) : builtByNewLogger (NewLogger z) := rfl

theorem WithName_builtByNewLogger (l : Logger) (name : String) :
    builtByNewLogger (l.WithName name) := rfl

/-- C5 (amended): for every logger `l` as `NewLogger` builds it whose backend
has Info enabled, with bound fields `B`, every well-formed `kv1` and `kv2` and
every message, `l.WithValues(kv1)` returns a logger, itself as `NewLogger`
builds it, and writes nothing; `Infow(msg, kv2)` on the returned logger writes
one Info record whose fields are `B`, then the fields of `kv1`, then the fields
of `kv2`; and `l.Infow(msg, kv2)` called after `WithValues` writes one Info
record whose fields are `B` followed by the fields of `kv2` only. -/
theorem WithValues_then_Infow (l : Logger) (kv1 kv2 : List Value) (msg : String)
    (out : List Entry) (hbuilt : builtByNewLogger l)
    (hinfo : l.zapLogger.level ≤ zapcore.InfoLevel)
    (h1 : wellFormed kv1 = true) (h2 : wellFormed kv2 = true) :
    (∃ l1, l.WithValues kv1 out = .ok l1 out ∧ builtByNewLogger l1 ∧
        l1.Infow msg kv2 out =
          .ok () (out ++ [⟨zapcore.InfoLevel, l.zapLogger.name, msg,
            l.zapLogger.context ++ fieldsOf kv1 ++ fieldsOf kv2⟩]))
      ∧ (l.WithValues kv1 out).andThen (fun _ out1 => l.Infow msg kv2 out1) =
          .ok () (out ++ [⟨zapcore.InfoLevel, l.zapLogger.name, msg,
            l.zapLogger.context ++ fieldsOf kv2⟩]) := by
  have hwv : l.WithValues kv1 out = .ok (NewLogger (l.zapLogger.With (fieldsOf kv1))) out := by
    simp [zapLogger.WithValues, handleFields_wellFormed l.zapLogger kv1 [] out h1,
      Outcome.andThen]
  have hl : l.Infow msg kv2 out =
      .ok () (out ++ [⟨zapcore.InfoLevel, l.zapLogger.name, msg,
        l.zapLogger.context ++ fieldsOf kv2⟩]) := by
    have : l.infoLogger = ⟨zapcore.InfoLevel, l.zapLogger⟩ := by
      have h := congrArg (fun x : Logger => x.infoLogger) hbuilt
      simpa [NewLogger] using h
    rw [zapLogger.Infow, this]
    exact Infow_wellFormed l.zapLogger msg kv2 out hinfo h2
  refine ⟨⟨NewLogger (l.zapLogger.With (fieldsOf kv1)), hwv, rfl, ?_⟩, ?_⟩
  · have h := Infow_wellFormed (l.zapLogger.With (fieldsOf kv1)) msg kv2 out
      (by rw [With_fields]; exact hinfo) h2
    rw [With_fields] at h
    rw [zapLogger.Infow, With_fields]
    simpa [NewLogger] using h
  · rw [hwv]
    exact hl

/-- C5 (witness): `WithValues("k1", "v1").Infow("m", "k2", "v2")` on the
production logger at Info severity. -/
theorem WithValues_then_Infow_witness :
    (∃ l1, (NewLogger infoBackend).WithValues [.string "k1", .string "v1"] [] = .ok l1 [] ∧
        builtByNewLogger l1 ∧
        l1.Infow "m" [.string "k2", .string "v2"] [] =
          .ok () [⟨zapcore.InfoLevel, "", "m",
            [zap.Any "k1" (.string "v1"), zap.Any "k2" (.string "v2")]⟩])
      ∧ ((NewLogger infoBackend).WithValues [.string "k1", .string "v1"] []).andThen
          (fun _ out1 => (NewLogger infoBackend).Infow "m" [.string "k2", .string "v2"] out1) =
          .ok () [⟨zapcore.InfoLevel, "", "m", [zap.Any "k2" (.string "v2")]⟩] :=
  WithValues_then_Infow (NewLogger infoBackend) [.string "k1", .string "v1"]
    [.string "k2", .string "v2"] "m" [] rfl (by decide) rfl rfl

/-- C5 (counterexample): on a logger whose minimum severity is Error,
`WithValues("k1", "v1").Infow("m", "k2", "v2")` writes no record at all.  And on
the logger that `L(ctx)` returns for a context with a request id, the record
written through `WithValues("k1", "v1")` starts with the request id, while
`Infow("m", "k2", "v2")` on the logger itself writes a record without it: no
list `B` of bound fields fits both records. -/
theorem WithValues_then_Infow_counterexample :
    ((NewLogger errorBackend).WithValues [.string "k1", .string "v1"] []).andThen
        (fun l1 out1 => l1.Infow "m" [.string "k2", .string "v2"] out1) = .ok () []
      ∧ (((NewLogger infoBackend).L sampleKeys requestContext).WithValues
          [.string "k1", .string "v1"] []).andThen
        (fun l1 out1 => l1.Infow "m" [.string "k2", .string "v2"] out1) =
          .ok () [⟨zapcore.InfoLevel, "", "m",
            [zap.Any "requestID" (.string "r1"), zap.Any "k1" (.string "v1"),
              zap.Any "k2" (.string "v2")]⟩]
      ∧ ((NewLogger infoBackend).L sampleKeys requestContext).Infow "m"
          [.string "k2", .string "v2"] [] =
          .ok () [⟨zapcore.InfoLevel, "", "m", [zap.Any "k2" (.string "v2")]⟩] := by
  refine ⟨rfl, rfl, rfl⟩

end log

namespace log

open zap (Value Field Entry Outcome)

/-! ### The verbosity gate -/

/-- Within the range of an `int8` the conversion keeps the value. -/
theorem toLevel_in_range (n : Int) (h0 : 0 ≤ n) (h1 : n ≤ 128) :
    zapcore.toLevel (-1 * n) = -n := by
  show ((-1 * n + 128) % 256 - 128 : Int) = -n
  omega

/-- What `V(n).Enabled()` computes: the core's predicate at the narrowed level. -/
theorem V_Enabled_eq (l : Logger) (n : Int) :
    (l.V n).Enabled = l.zapLogger.Enabled (zapcore.toLevel (-1 * n)) := by
  unfold zapLogger.V
  cases h : l.zapLogger.Enabled (zapcore.toLevel (-1 * n)) <;>
    simp only [h, InfoLogger.Enabled, infoLogger.Enabled] <;> rfl

/-- For `0 ≤ n ≤ 128` the gate is the integer comparison `m ≤ -n`. -/
theorem V_Enabled_in_range (l : Logger) (n : Int) (h0 : 0 ≤ n) (h1 : n ≤ 128) :
    (l.V n).Enabled = decide (l.zapLogger.level ≤ -n) := by
  rw [V_Enabled_eq, toLevel_in_range n h0 h1]
  rfl

/-- Within `0 ≤ n ≤ n' ≤ 128` the gate of `V` is the integer comparison
`m ≤ -n` on the minimum severity `m`, and it is monotone: when `V(n')` is
enabled, so is `V(n)`. -/
theorem V_gate_monotone_in_range (l : Logger) (n n' : Int) (h0 : 0 ≤ n) (h1 : n ≤ n')
    (h2 : n' ≤ 128) :
    (l.V n).Enabled = decide (l.zapLogger.level ≤ -n)
      ∧ ((l.V n').Enabled = true → (l.V n).Enabled = true) := by
  have hn : n ≤ 128 := Int.le_trans h1 h2
  have hn' : 0 ≤ n' := Int.le_trans h0 h1
  refine ⟨V_Enabled_in_range l n h0 hn, ?_⟩
  rw [V_Enabled_in_range l n h0 hn, V_Enabled_in_range l n' hn' h2]
  intro h
  have h3 : l.zapLogger.level ≤ -n' := of_decide_eq_true h
  have h4 : -n' ≤ -n := Int.neg_le_neg h1
  exact decide_eq_true (Int.le_trans h3 h4)

/-- The gate in range, at the debug logger: `V(1)` is enabled and so is `V(0)`. -/
theorem V_gate_monotone_in_range_witness :
    ((NewLogger { infoBackend with level := zapcore.DebugLevel }).V 0).Enabled =
        decide ((NewLogger { infoBackend with level := zapcore.DebugLevel }).zapLogger.level ≤ -0)
      ∧ (((NewLogger { infoBackend with level := zapcore.DebugLevel }).V 1).Enabled = true →
        ((NewLogger { infoBackend with level := zapcore.DebugLevel }).V 0).Enabled = true) :=
  V_gate_monotone_in_range (NewLogger { infoBackend with level := zapcore.DebugLevel }) 0 1
    (by decide) (by decide) (by decide)

/-- C6 (the code at the failing input): with minimum severity Info (0),
`V(129)` narrows `-129` to the level `127`, so `V(129).Enabled()` is true
although `0 ≤ -129` is false, while `V(1).Enabled()` is false: the gate is not
monotone. -/
theorem V_narrowing_opens_gate :
    zapcore.toLevel (-1 * 129) = 127
      ∧ ((NewLogger infoBackend).V 129).Enabled = true
      ∧ decide ((NewLogger infoBackend).zapLogger.level ≤ -129) = false
      ∧ ((NewLogger infoBackend).V 1).Enabled = false := by
  refine ⟨rfl, rfl, rfl, rfl⟩

/-! ### `L(ctx)` -/

/-- C7 (the code at the failing input): `L(ctx)` replaces only the field
`zapLogger` of the clone; the embedded `infoLogger` and the sugared handle stay
those of the receiver.  With the request id `r1` in the context, `Warn` on the
returned logger carries the field, while `Info`, `Infow`, `Infof` and `Warnw`
write the record without it. -/
theorem L_fields_missing_on_info_forms (p : fmt.Printer) (ks : Keys) (l : Logger)
    (ctx : Context) :
    (l.L ks ctx).infoLogger = l.infoLogger
      ∧ (l.L ks ctx).zapSugaredLogger = l.zapSugaredLogger
      ∧ ((NewLogger infoBackend).L sampleKeys requestContext).Warn "m" [] [] =
          .ok () [⟨zapcore.WarnLevel, "", "m", [zap.Any "requestID" (.string "r1")]⟩]
      ∧ ((NewLogger infoBackend).L sampleKeys requestContext).Info "m" [] [] =
          .ok () [⟨zapcore.InfoLevel, "", "m", []⟩]
      ∧ ((NewLogger infoBackend).L sampleKeys requestContext).Infow "m" [] [] =
          .ok () [⟨zapcore.InfoLevel, "", "m", []⟩]
      ∧ ((NewLogger infoBackend).L sampleKeys requestContext).Infof p "m" [] [] =
          .ok () [⟨zapcore.InfoLevel, "", p.Sprintf "m" [], []⟩]
      ∧ ((NewLogger infoBackend).L sampleKeys requestContext).Warnw p "m" [] [] =
          .ok () [⟨zapcore.WarnLevel, "", "m", []⟩] := by
  refine ⟨?_, ?_, rfl, rfl, rfl, rfl, rfl⟩
  · unfold zapLogger.L
    simp only [zapLogger.clone]
    split <;> split <;> split <;> rfl
  · unfold zapLogger.L
    simp only [zapLogger.clone]
    split <;> split <;> split <;> rfl

/-! ### `Enabled` -/

/-- C8 (amended): `Enabled()` of a logger built by `New` or `NewLogger`, or
derived by `WithName`, returns true whatever the minimum severity of the
backend; the backend's severity predicate is consulted by `V`:
`V(0).Enabled()` is true exactly when the core has Info enabled. -/
theorem Enabled_constant_true (t : unicode.Tables) (opts : Option Options) (z : zap.Logger)
    (name : String) :
    (New t opts).Enabled = true
      ∧ (NewLogger z).Enabled = true
      ∧ ((NewLogger z).WithName name).Enabled = true
      ∧ ((NewLogger z).V 0).Enabled = z.Enabled zapcore.InfoLevel := by
  refine ⟨rfl, rfl, rfl, ?_⟩
  rw [V_Enabled_eq]
  rfl

/-- C8 (counterexample): the logger that `New` builds for the level `error`
reports `Enabled() = true` although its core has Info disabled. -/
theorem Enabled_counterexample :
    (New asciiTables (some { NewOptions with Level := "error" })).Enabled = true
      ∧ (New asciiTables (some { NewOptions with Level := "error" })).zapLogger.level
          = zapcore.ErrorLevel
      ∧ (New asciiTables (some { NewOptions with Level := "error" })).zapLogger.Enabled
          zapcore.InfoLevel = false := by
  refine ⟨rfl, rfl, rfl⟩

/-! ### `Errorw` -/

/-- C9 (the code at the failing input): `Errorw("m", "k", "v")`, as a method and
as the package-level function, writes an Error record whose message is
`Sprintf("m", "k", "v")` and which has no field for the pair, while
`Warnw("m", "k", "v")` writes the message `m` with the field `k = v`. -/
theorem Errorw_formats_instead_of_pairing (p : fmt.Printer) :
    (NewLogger infoBackend).Errorw p "m" [.string "k", .string "v"] [] =
        .ok () [⟨zapcore.ErrorLevel, "", p.Sprintf "m" [.string "k", .string "v"], []⟩]
      ∧ Errorw (NewLogger infoBackend) p "m" [.string "k", .string "v"] [] =
        .ok () [⟨zapcore.ErrorLevel, "", p.Sprintf "m" [.string "k", .string "v"], []⟩]
      ∧ (NewLogger infoBackend).Warnw p "m" [.string "k", .string "v"] [] =
        .ok () [⟨zapcore.WarnLevel, "", "m", [zap.Any "k" (.string "v")]⟩] := by
  refine ⟨rfl, rfl, rfl⟩

end log

namespace log

open zap (Value Field Entry Outcome)

/-! ### Context binding -/

theorem Value_WithContext (l : Logger) (ctx : Context) :
    (l.WithContext ctx).Value Key.logContextKey = Bound.logger l := by
  simp [zapLogger.WithContext, Context.Value]

theorem Value_skip (key : Key) (val : Bound) (parent : Context) (k : Key) (h : key ≠ k) :
    Context.Value ((key, val) :: parent) k = Context.Value parent k := by
  have hb : (key == k) = false := by simpa using h
  simp [Context.Value, List.find?, hb]

theorem Value_unbound (c : Context) (h : ∀ b ∈ c, b.1 ≠ Key.logContextKey) :
    Context.Value c Key.logContextKey = Bound.value Value.nil := by
  induction c with
  | nil => rfl
  | cons b c ih =>
    obtain ⟨key, val⟩ := b
    rw [Value_skip key val c _ (h (key, val) (List.mem_cons_self _ _))]
    exact ih (fun b hb => h b (List.mem_cons_of_mem _ hb))

/-- In a context that a program can build, whatever is bound under
`logContextKey` is a logger. -/
theorem Built_Value (c : Context) (h : Context.Built c) :
    Context.Value c Key.logContextKey = Bound.value Value.nil
      ∨ ∃ l, Context.Value c Key.logContextKey = Bound.logger l := by
  induction h with
  | background => exact Or.inl rfl
  | withValue key val parent hkey _ ih =>
    rw [Value_skip key val parent _ hkey]
    exact ih
  | withContext l parent _ _ => exact Or.inr ⟨l, Value_WithContext l parent⟩

/-- C10: for every logger `l` and every context `ctx`,
`FromContext(l.WithContext(ctx))` returns `l` itself; for every context with no
bound logger, a nil context included, `FromContext` returns a logger, the global
logger's `WithName("Unknown-Context")`; and on every context that a program can
build `FromContext` returns a logger: the type assertion does not panic, since
only `WithContext` binds under the unexported key and it binds a `*zapLogger`. -/
theorem FromContext_returns_bound_logger (_logger l : Logger) (ctx : Context) :
    FromContext _logger (some (l.WithContext ctx)) = some l
      ∧ (∀ c : Option Context, noBoundLogger c →
          FromContext _logger c = some (_logger.WithName "Unknown-Context"))
      ∧ FromContext _logger none = some (_logger.WithName "Unknown-Context")
      ∧ (∀ c : Context, Context.Built c → ∃ r, FromContext _logger (some c) = some r)
      ∧ (∀ c : Context, Context.Built c → Context.Built (l.WithContext c)) := by
  refine ⟨?_, ?_, rfl, ?_, ?_⟩
  · simp [FromContext, Value_WithContext, Bound.nonNil]
  · intro c hc
    cases c with
    | none => rfl
    | some c => simp [FromContext, Value_unbound c hc, Bound.nonNil, WithName]
  · intro c hc
    rcases Built_Value c hc with h | ⟨l1, h⟩
    · exact ⟨WithName _logger "Unknown-Context", by simp [FromContext, h, Bound.nonNil]⟩
    · exact ⟨l1, by simp [FromContext, h, Bound.nonNil]⟩
  · intro c hc
    exact Context.Built.withContext l c hc

/-- C10 (witness): the context of the example program, a logger bound on the
background context, and a context that carries only a request id. -/
theorem FromContext_returns_bound_logger_witness :
    FromContext (NewLogger infoBackend)
        (some ((NewLogger errorBackend).WithContext [])) = some (NewLogger errorBackend)
      ∧ FromContext (NewLogger infoBackend) (some requestContext) =
          some ((NewLogger infoBackend).WithName "Unknown-Context")
      ∧ ((NewLogger infoBackend).WithName "Unknown-Context").zapLogger.name =
          "Unknown-Context" := by
  have h := FromContext_returns_bound_logger (NewLogger infoBackend) (NewLogger errorBackend) []
  refine ⟨h.1, h.2.1 (some requestContext) ?_, rfl⟩
  intro b hb
  simp [requestContext] at hb
  subst hb
  simp

end log

namespace log

open zap (Value Field Entry Outcome)

/-! ### The no-op logger -/

/-- For `0 ≤ n ≤ 128` the gate is closed exactly when the minimum severity is
above `-n`. -/
theorem gate_closed_in_range (l : Logger) (n : Int) (h0 : 0 ≤ n) (h1 : n ≤ 128) :
    l.zapLogger.Enabled (zapcore.toLevel (-1 * n)) = false ↔ -n < l.zapLogger.level := by
  rw [toLevel_in_range n h0 h1]
  simp [zap.Logger.Enabled]

/-- When the check that `V` makes fails, `V(n)` is the shared
`disabledInfoLogger`, and every call on it returns with the sink unchanged. -/
theorem V_disabled_is_noop (l : Logger) (n : Int) (p : fmt.Printer) (msg format : String)
    (fields : List Field) (v keysAndValues : List Value) (out : List Entry)
    (hclosed : l.zapLogger.Enabled (zapcore.toLevel (-1 * n)) = false) :
    l.V n = InfoLogger.disabledInfoLogger
      ∧ (l.V n).Enabled = false
      ∧ (l.V n).Info msg fields out = .ok () out
      ∧ (l.V n).Infof p format v out = .ok () out
      ∧ (l.V n).Infow msg keysAndValues out = .ok () out := by
  have hV : l.V n = InfoLogger.disabledInfoLogger := by
    unfold zapLogger.V
    simp only [hclosed]
    rfl
  rw [hV]
  exact ⟨rfl, rfl, rfl, rfl, rfl⟩

/-- For `0 ≤ n ≤ 128` and a minimum severity `m` stricter than `-n`, `V(n)`
returns the shared `disabledInfoLogger`, its `Enabled()` is false, and `Info`,
`Infof` and `Infow` on it return with the backend unchanged, whatever the
arguments are (a malformed loose list included). -/
theorem V_closed_gate_in_range_is_noop (l : Logger) (n : Int) (p : fmt.Printer)
    (msg format : String) (fields : List Field) (v keysAndValues : List Value)
    (out : List Entry) (h0 : 0 ≤ n) (h1 : n ≤ 128) (hstrict : -n < l.zapLogger.level) :
    l.V n = InfoLogger.disabledInfoLogger
      ∧ (l.V n).Enabled = false
      ∧ (l.V n).Info msg fields out = .ok () out
      ∧ (l.V n).Infof p format v out = .ok () out
      ∧ (l.V n).Infow msg keysAndValues out = .ok () out :=
  V_disabled_is_noop l n p msg format fields v keysAndValues out
    ((gate_closed_in_range l n h0 h1).mpr hstrict)

/-- The closed gate in range, on a development-mode logger at Info severity:
`V(1)` is the no-op logger, and `Infow` with an odd list, with a non-string key
and with a structured Field writes nothing and does not panic. -/
theorem V_closed_gate_in_range_is_noop_witness :
    (NewLogger devBackend).V 1 = InfoLogger.disabledInfoLogger
      ∧ ((NewLogger devBackend).V 1).Enabled = false
      ∧ ((NewLogger devBackend).V 1).Infow "m" [.string "a", .int 1, .string "b"] [] = .ok () []
      ∧ ((NewLogger devBackend).V 1).Infow "m" [.int 1, .string "x"] [] = .ok () []
      ∧ ((NewLogger devBackend).V 1).Infow "m" [.field "f" (.int 0)] [] = .ok () [] := by
  have h := fun kv => V_closed_gate_in_range_is_noop (NewLogger devBackend) 1
    ⟨fun f _ => f, fun _ => ""⟩ "m" "m" [] [] kv [] (by decide) (by decide) (by decide)
  exact ⟨(h []).1, (h []).2.1, (h _).2.2.2.2, (h _).2.2.2.2, (h _).2.2.2.2⟩

/-- C11 (the code at the failing input): on a logger with minimum severity Info
(0) the gate is closed for `n = 129`, since `0 ≤ -129` is false; yet `V(129)`
is not the shared no-op logger but a live `infoLogger` at the narrowed level
`127`: its `Enabled()` is true, `Info` writes a record, and `Infow` with an odd
list writes a diagnostic record and a record.  Likewise `V(252)` narrows to the
Panic level, so `Info` on it writes a record and panics, and `V(251)` narrows to
the Fatal level, so `Info` on it writes a record and exits. -/
theorem V_beyond_range_is_live :
    decide ((NewLogger infoBackend).zapLogger.level ≤ -129) = false
      ∧ (NewLogger infoBackend).V 129 = InfoLogger.info ⟨127, infoBackend⟩
      ∧ ((NewLogger infoBackend).V 129).Enabled = true
      ∧ ((NewLogger infoBackend).V 129).Info "m" [] [] = .ok () [⟨127, "", "m", []⟩]
      ∧ ((NewLogger infoBackend).V 129).Infow "m" [.string "a"] [] =
          .ok () [⟨zapcore.DPanicLevel, "",
              "odd number of arguments passed as key-value pairs for logging",
              [zap.Any "ignored key" (.string "a")]⟩,
            ⟨127, "", "m", []⟩]
      ∧ ((NewLogger infoBackend).V 252).Info "m" [] [] =
          .panic [⟨zapcore.PanicLevel, "", "m", []⟩]
      ∧ ((NewLogger infoBackend).V 251).Info "m" [] [] =
          .exit [⟨zapcore.FatalLevel, "", "m", []⟩] := by
  refine ⟨rfl, rfl, rfl, rfl, rfl, rfl, rfl⟩

end log

namespace app

/-! ### `NamedFlagSets.FlagSet` -/

theorem lookup_eq_none_iff_keys (m : FlagSetMap) (name : String) :
    m.lookup name = none ↔ name ∉ m.map Prod.fst := by
  induction m with
  | nil => simp
  | cons b m ih =>
    obtain ⟨k, p⟩ := b
    by_cases h : name = k
    · subst h
      simp [List.lookup]
    · have hb : (name == k) = false := by simpa using h
      simp [List.lookup, hb, ih, h]

theorem lookup_append_new (m : FlagSetMap) (name : String) (p : Pointer)
    (h : m.lookup name = none) : (m ++ [(name, p)]).lookup name = some p := by
  induction m with
  | nil => simp [List.lookup]
  | cons b m ih =>
    obtain ⟨k, q⟩ := b
    by_cases hk : name = k
    · subst hk
      simp [List.lookup] at h
    · have hb : (name == k) = false := by simpa using hk
      simp only [List.cons_append, List.lookup, hb] at h ⊢
      exact ih h

/-- A call for a name that is a key returns the stored pointer and changes
nothing. -/
theorem FlagSet_present (nfs : NamedFlagSets) (heap : Heap) (name : String)
    (m : FlagSetMap) (p : Pointer) (hm : nfs.FlagSets = some m)
    (hp : m.lookup name = some p) :
    nfs.FlagSet heap name = (p, nfs, heap) := by
  obtain ⟨order, fs⟩ := nfs
  simp only at hm
  subst hm
  simp [NamedFlagSets.FlagSet, hp]

/-- A call for a name that is no key allocates the set, binds it and appends
the name to `Order`. -/
theorem FlagSet_absent (nfs : NamedFlagSets) (heap : Heap) (name : String)
    (h : name ∉ nfs.keys) :
    nfs.FlagSet heap name =
      (some heap.length,
        { Order := nfs.Order ++ [name],
          FlagSets := some ((nfs.FlagSets.getD []) ++ [(name, some heap.length)]) },
        heap ++ [pflag.NewFlagSet name .ExitOnError]) := by
  obtain ⟨order, fs⟩ := nfs
  cases fs with
  | none => simp [NamedFlagSets.FlagSet, FlagSetMap.set, List.lookup]
  | some m =>
    have hl : m.lookup name = none := (lookup_eq_none_iff_keys m name).mpr h
    simp [NamedFlagSets.FlagSet, FlagSetMap.set, hl, lookup_append_new m name _ hl]

theorem firstRequests_mem (names : List String) (x : String) :
    x ∈ firstRequests names ↔ x ∈ names := by
  induction names with
  | nil => simp [firstRequests]
  | cons n rest ih =>
    simp only [firstRequests, List.mem_cons, List.mem_filter, ih, decide_eq_true_eq]
    by_cases h : x = n <;> simp [h]

theorem firstRequests_nodup (names : List String) : (firstRequests names).Nodup := by
  induction names with
  | nil => simp [firstRequests]
  | cons n rest ih =>
    simp only [firstRequests, List.nodup_cons, List.mem_filter, decide_eq_true_eq]
    exact ⟨fun h => h.2 rfl, ih.filter _⟩

/-- The calls keep `Order` equal to the keys and extend it by the names that
are new, in the order of their first request. -/
theorem calls_order (names : List String) :
    ∀ (nfs : NamedFlagSets) (heap : Heap), nfs.keys = nfs.Order →
      (nfs.calls heap names).1.Order =
          nfs.Order ++ (firstRequests names).filter (fun x => decide (x ∉ nfs.Order))
        ∧ (nfs.calls heap names).1.keys = (nfs.calls heap names).1.Order := by
  induction names with
  | nil => intro nfs heap h; simpa [NamedFlagSets.calls, firstRequests] using h
  | cons n rest ih =>
    intro nfs heap hinv
    have hstep : nfs.calls heap (n :: rest) =
        (nfs.FlagSet heap n).2.1.calls (nfs.FlagSet heap n).2.2 rest := by
      simp [NamedFlagSets.calls]
    rw [hstep]
    by_cases hn : n ∈ nfs.keys
    · obtain ⟨m, hm⟩ : ∃ m, nfs.FlagSets = some m := by
        cases hfs : nfs.FlagSets with
        | none => simp [NamedFlagSets.keys, hfs] at hn
        | some m => exact ⟨m, rfl⟩
      have hkey : n ∈ m.map Prod.fst := by simpa [NamedFlagSets.keys, hm] using hn
      obtain ⟨p, hp⟩ : ∃ p, m.lookup n = some p := by
        cases hl : m.lookup n with
        | none => exact absurd hkey ((lookup_eq_none_iff_keys m n).mp hl)
        | some p => exact ⟨p, rfl⟩
      rw [FlagSet_present nfs heap n m p hm hp]
      obtain ⟨h1, h2⟩ := ih nfs heap hinv
      refine ⟨?_, h2⟩
      rw [h1]
      have hno : n ∈ nfs.Order := hinv ▸ hn
      simp only [firstRequests, List.filter_cons, hno, not_true_eq_false, decide_False,
        Bool.false_eq_true, if_false, List.filter_filter]
      congr 1
      apply List.filter_congr
      intro x _
      by_cases hx : x ∈ nfs.Order
      · simp [hx]
      · have : x ≠ n := fun h => hx (h ▸ hno)
        simp [hx, this]
    · rw [FlagSet_absent nfs heap n hn]
      have hno : n ∉ nfs.Order := hinv ▸ hn
      have hinv1 : NamedFlagSets.keys
          { Order := nfs.Order ++ [n],
            FlagSets := some ((nfs.FlagSets.getD []) ++ [(n, some heap.length)]) } =
          nfs.Order ++ [n] := by
        rw [← hinv]
        cases hfs : nfs.FlagSets <;> simp [NamedFlagSets.keys, hfs]
      obtain ⟨h1, h2⟩ := ih _ (heap ++ [pflag.NewFlagSet n .ExitOnError]) hinv1
      refine ⟨?_, h2⟩
      rw [h1]
      simp only [firstRequests, List.filter_cons, hno, not_false_eq_true, decide_True,
        if_true, List.filter_filter, List.append_assoc, List.singleton_append]
      congr 2
      apply List.filter_congr
      intro x _
      by_cases hx : x ∈ nfs.Order <;> by_cases hxn : x = n <;> simp [hx, hxn]

end app

namespace app

/-- C12: starting from the zero `NamedFlagSets`, after the calls `FlagSet(name)`
for any list of names, `Order` holds each distinct requested name exactly once,
in the order of its first request, and the elements of `Order` are exactly the
keys of `FlagSets`.  In any state, `FlagSet` on a name that is a key returns the
pointer stored for it and leaves `Order`, `FlagSets` and the heap unchanged;
`FlagSet` on a name that is no key allocates a new set with that name, binds
it, appends the name at the end of `Order` and returns the new set. -/
theorem FlagSet_keeps_first_request_order (names : List String) (heap0 : Heap) :
    ((NamedFlagSets.zero.calls heap0 names).1.Order = firstRequests names
        ∧ (NamedFlagSets.zero.calls heap0 names).1.Order.Nodup
        ∧ (∀ x, x ∈ (NamedFlagSets.zero.calls heap0 names).1.Order ↔ x ∈ names)
        ∧ (∀ x, x ∈ (NamedFlagSets.zero.calls heap0 names).1.Order ↔
            x ∈ (NamedFlagSets.zero.calls heap0 names).1.keys))
      ∧ (∀ (nfs : NamedFlagSets) (heap : Heap) (name : String), name ∈ nfs.keys →
          (nfs.FlagSet heap name).2 = (nfs, heap)
            ∧ ∃ m, nfs.FlagSets = some m ∧ m.lookup name = some (nfs.FlagSet heap name).1)
      ∧ (∀ (nfs : NamedFlagSets) (heap : Heap) (name : String), name ∉ nfs.keys →
          (nfs.FlagSet heap name).1 = some heap.length
            ∧ (nfs.FlagSet heap name).2.2 = heap ++ [pflag.NewFlagSet name .ExitOnError]
            ∧ (nfs.FlagSet heap name).2.2[heap.length]? = some ⟨name, .ExitOnError⟩
            ∧ (nfs.FlagSet heap name).2.1.Order = nfs.Order ++ [name]
            ∧ (nfs.FlagSet heap name).2.1.FlagSets =
                some ((nfs.FlagSets.getD []) ++ [(name, some heap.length)])
            ∧ (nfs.FlagSet heap name).2.1.keys = nfs.keys ++ [name]) := by
  refine ⟨?_, ?_, ?_⟩
  · obtain ⟨h1, h2⟩ := calls_order names NamedFlagSets.zero heap0 rfl
    have hO : (NamedFlagSets.zero.calls heap0 names).1.Order = firstRequests names := by
      rw [h1]
      simp [NamedFlagSets.zero]
    refine ⟨hO, ?_, ?_, ?_⟩
    · rw [hO]
      exact firstRequests_nodup names
    · intro x
      rw [hO]
      exact firstRequests_mem names x
    · intro x
      rw [h2]
  · intro nfs heap name hn
    obtain ⟨m, hm⟩ : ∃ m, nfs.FlagSets = some m := by
      cases hfs : nfs.FlagSets with
      | none => simp [NamedFlagSets.keys, hfs] at hn
      | some m => exact ⟨m, rfl⟩
    have hkey : name ∈ m.map Prod.fst := by simpa [NamedFlagSets.keys, hm] using hn
    obtain ⟨p, hp⟩ : ∃ p, m.lookup name = some p := by
      cases hl : m.lookup name with
      | none => exact absurd hkey ((lookup_eq_none_iff_keys m name).mp hl)
      | some p => exact ⟨p, rfl⟩
    rw [FlagSet_present nfs heap name m p hm hp]
    exact ⟨rfl, m, hm, hp⟩
  · intro nfs heap name hn
    rw [FlagSet_absent nfs heap name hn]
    refine ⟨rfl, rfl, ?_, rfl, rfl, ?_⟩
    · simp [pflag.NewFlagSet]
    · cases hfs : nfs.FlagSets <;> simp [NamedFlagSets.keys, hfs]

/-- C12 (witness): the requests `a, b, a, c, b` from the zero value on an empty
heap, then a request for the present name `b` and one for the new name `d`. -/
theorem FlagSet_keeps_first_request_order_witness :
    (NamedFlagSets.zero.calls [] ["a", "b", "a", "c", "b"]).1.Order = ["a", "b", "c"]
      ∧ (NamedFlagSets.zero.calls [] ["a", "b", "a", "c", "b"]).1.keys = ["a", "b", "c"]
      ∧ ((NamedFlagSets.zero.calls [] ["a", "b", "a", "c", "b"]).1.FlagSet
          (NamedFlagSets.zero.calls [] ["a", "b", "a", "c", "b"]).2 "b").2 =
          NamedFlagSets.zero.calls [] ["a", "b", "a", "c", "b"]
      ∧ ((NamedFlagSets.zero.calls [] ["a", "b", "a", "c", "b"]).1.FlagSet
          (NamedFlagSets.zero.calls [] ["a", "b", "a", "c", "b"]).2 "d").2.1.Order =
          ["a", "b", "c", "d"] := by
  have h := FlagSet_keeps_first_request_order ["a", "b", "a", "c", "b"] []
  refine ⟨h.1.1, rfl, ?_, ?_⟩
  · exact (h.2.1 _ _ "b" (by decide)).1
  · exact (h.2.2 _ _ "d" (by decide)).2.2.2.1

end app
